import Mathlib

/-
Shallow embedding of the short-code resolution and click-recording pipeline
of the URL-shortening backend.

Sources embedded (JavaScript):
  - services/urlService.js : generateShortCode, getUrlByShortCode, updateUrl,
    deleteUrl, cacheUrl, invalidateUrlCache
  - config/redis.js        : get / set / del cache wrappers (errors absorbed)
  - controllers (handleRedirect) : the redirect decision path
  - services/analyticsService.js : recordClick, detectDeviceType, detectBot

Modelling conventions:
  - Time is a `Nat` (milliseconds since epoch); "expired" means the strict
    comparison `new Date(expires_at) < new Date()` of the source.
  - The relational `urls` table is a `List UrlRow`; SQL row order is list
    order and `WHERE` clauses are `List.filter` / `List.find?`.
  - The Redis cache is an association list from key to the cached camelCase
    projection.  A `cacheUp : Bool` flag models cache-backend availability:
    when it is `false` every raw cache command fails, and the `redis.js`
    wrappers absorb the failure exactly as the try/catch in the source does.
  - External collaborators (bcrypt.compare, geoip.lookup, useragent.parse,
    the INSERT into url_clicks failing) are explicit parameters, since the
    source consumes them as capabilities.
  - JavaScript truthiness at the points the source relies on it (empty
    string / null / undefined are falsy) is modelled explicitly at each site.
-/

namespace UrlShort

/-- A row of the `urls` table (snake_case columns, camelCase field names). -/
structure UrlRow where
  id : Nat
  userId : Option Nat
  originalUrl : String
  shortCode : String
  customAlias : Option String
  title : Option String
  descr : Option String
  isActive : Bool
  isPublic : Bool
  passwordHash : Option String
  clickCount : Nat
  createdAt : Nat
  updatedAt : Nat
  expiresAt : Option Nat
  lastAccessed : Option Nat
deriving Repr, DecidableEq

/-- The camelCase projection that `getUrlByShortCode` builds from a row and
stores in the cache.  The source object literal (urlService.js, the
`urlData` built after the SELECT) has NO `passwordHash` property; reading
`urlData.passwordHash` later yields `undefined`.  That omission is modelled
by the projection always setting `passwordHash := none`. -/
structure UrlData where
  id : Nat
  userId : Option Nat
  originalUrl : String
  shortCode : String
  customAlias : Option String
  title : Option String
  descr : Option String
  isActive : Bool
  isPublic : Bool
  passwordHash : Option String
  clickCount : Nat
  createdAt : Nat
  updatedAt : Nat
  expiresAt : Option Nat
  lastAccessed : Option Nat
  userEmail : Option String
deriving Repr, DecidableEq

/-- `urlData` object literal of `getUrlByShortCode`: every served field is
copied from the row except `password_hash`, which the literal omits.  The
`user_email` column comes from the LEFT JOIN with `users`; the users table
plays no role in resolution, so the join result is modelled as absent. -/
def projectUrlData (r : UrlRow) : UrlData :=
  ⟨r.id, r.userId, r.originalUrl, r.shortCode, r.customAlias, r.title, r.descr,
   r.isActive, r.isPublic, none, r.clickCount, r.createdAt, r.updatedAt,
   r.expiresAt, r.lastAccessed, none⟩

/-- Application error (`AppError` class): message and HTTP status code. -/
structure AppErr where
  message : String
  status : Nat
deriving Repr, DecidableEq

instance exceptDecEq {ε α : Type} [DecidableEq ε] [DecidableEq α] :
    DecidableEq (Except ε α) := fun a b =>
  match a, b with
  | .error e, .error f =>
    if h : e = f then .isTrue (by rw [h]) else .isFalse (by intro hh; cases hh; exact h rfl)
  | .error _, .ok _ => .isFalse (by intro hh; cases hh)
  | .ok _, .error _ => .isFalse (by intro hh; cases hh)
  | .ok x, .ok y =>
    if h : x = y then .isTrue (by rw [h]) else .isFalse (by intro hh; cases hh; exact h rfl)

/-! ### Redis cache wrappers (config/redis.js)

`get` / `set` / `del` wrap the raw client commands in try/catch; on any
client error they log and return `null` / `false` instead of throwing. -/

/-- Cache contents: key to cached projection. -/
abbrev Cache := List (String × UrlData)

/-- Association-list lookup for the cache. -/
def cacheFind (cache : Cache) (key : String) : Option UrlData :=
  (cache.find? (fun e => e.1 == key)).map (fun e => e.2)

/-- Insert-or-replace for the cache. -/
def cacheStore (cache : Cache) (key : String) (v : UrlData) : Cache :=
  (key, v) :: cache.filter (fun e => e.1 != key)

/-- Raw `client.get`: fails whenever the cache backend is down. -/
def redisRawGet (cacheUp : Bool) (cache : Cache) (key : String) :
    Except String (Option UrlData) :=
  if cacheUp then .ok (cacheFind cache key) else .error "redis connection error"

/-- `get(key)` of redis.js: try/catch around the raw command, returning
`null` on error (the error is logged, never rethrown). -/
def redisGet (cacheUp : Bool) (cache : Cache) (key : String) : Option UrlData :=
  match redisRawGet cacheUp cache key with
  | .ok v => v
  | .error _ => none

/-- `set(key, value, ttl)` of redis.js: on backend failure it returns
`false` and leaves the cache unchanged (error absorbed). -/
def redisSet (cacheUp : Bool) (cache : Cache) (key : String) (v : UrlData) : Cache :=
  if cacheUp then cacheStore cache key v else cache

/-- `del(key)` of redis.js: on backend failure the key is not removed and
the error is absorbed. -/
def redisDel (cacheUp : Bool) (cache : Cache) (key : String) : Cache :=
  if cacheUp then cache.filter (fun e => e.1 != key) else cache

/-! ### urlService.getUrlByShortCode -/

/-- The SELECT of `getUrlByShortCode`:
`WHERE u.short_code = $1 AND u.is_active = true` (first matching row). -/
def dbFindActive (db : List UrlRow) (code : String) : Option UrlRow :=
  db.find? (fun r => r.shortCode == code && r.isActive)

/-- Expiry test of `getUrlByShortCode`:
`url.expires_at && new Date(url.expires_at) < new Date()`. -/
def rowExpired (r : UrlRow) (now : Nat) : Bool :=
  match r.expiresAt with
  | some e => e < now
  | none => false

/-- What the store alone answers for a code: the active row if any,
dropped when expired, projected to the served shape. -/
def storeLookup (db : List UrlRow) (now : Nat) (code : String) : Option UrlData :=
  match dbFindActive db code with
  | none => none
  | some r => if rowExpired r now then none else some (projectUrlData r)

/-- Result of one `getUrlByShortCode` call: the value returned to the
caller, the cache afterwards, and how many store queries were issued. -/
structure ResolveOut where
  result : Option UrlData
  cache : Cache
  storeQueries : Nat
deriving Repr, DecidableEq

/-- `getUrlByShortCode(shortCode)`:
try the cache first (`url:` ++ code); on a hit return the cached value as
is.  Otherwise query the store; a missing or inactive or expired row
returns `null` WITHOUT writing anything to the cache (no tombstone); a live
row is projected, cached via `cacheUrl` and returned. -/
def getUrlByShortCode (db : List UrlRow) (cache : Cache) (cacheUp : Bool)
    (now : Nat) (code : String) : ResolveOut :=
  match redisGet cacheUp cache ("url:" ++ code) with
  | some v => ⟨some v, cache, 0⟩
  | none =>
    match dbFindActive db code with
    | none => ⟨none, cache, 1⟩
    | some r =>
      if rowExpired r now then ⟨none, cache, 1⟩
      else
        let u := projectUrlData r
        ⟨some u, redisSet cacheUp cache ("url:" ++ u.shortCode) u, 1⟩

/-! ### urlService.generateShortCode -/

/-- Charset of the custom-alias regex of the source:
letters, digits, hyphens and underscores. -/
def validAliasChar (c : Char) : Bool :=
  c.isAlpha || c.isDigit || c == '_' || c == '-'

/-- Uniqueness check for a custom alias: the SELECT
`WHERE short_code = $1 OR custom_alias = $1` finds a row. -/
def aliasOccupied (db : List UrlRow) (s : String) : Bool :=
  db.any (fun r => r.shortCode == s || r.customAlias == some s)

/-- Collision check for a generated code: the SELECT
`WHERE short_code = $1` finds a row (custom_alias is NOT consulted here). -/
def codeOccupied (db : List UrlRow) (s : String) : Bool :=
  db.any (fun r => r.shortCode == s)

/-- The `for (let i = 0; i < retries; i++)` loop drawing nanoid candidates
(the nanoid draws are supplied as the `supply` stream). -/
def genRandomLoop (db : List UrlRow) (supply : Nat → String) :
    Nat → Nat → Except AppErr String
  | 0, _ => .error ⟨"Unable to generate unique short code, please try again", 500⟩
  | fuel + 1, i =>
    let c := supply i
    if codeOccupied db c then genRandomLoop db supply fuel (i + 1) else .ok c

/-- Custom-alias length bounds (env defaults: min 3, max 50). -/
def customAliasMinLength : Nat := 3

/-- Custom-alias length bounds (env defaults: min 3, max 50). -/
def customAliasMaxLength : Nat := 50

/-- `generateShortCode(customAlias, retries)`.
`if (customAlias)` is a JavaScript truthiness test: `null` and the empty
string both fail it and fall through to random generation.  A truthy alias
is validated for length then charset, then checked for uniqueness against
both the short_code and custom_alias columns, and returned as is. -/
def generateShortCode (db : List UrlRow) (customAlias : Option String)
    (supply : Nat → String) (retries : Nat) : Except AppErr String :=
  if (match customAlias with | some s => s != "" | none => false) then
    let s := customAlias.getD ""
    if s.length < customAliasMinLength || s.length > customAliasMaxLength then
      .error ⟨"Custom alias must be between 3 and 50 characters", 400⟩
    else if !(s.toList.all validAliasChar) then
      .error ⟨"Custom alias can only contain letters, numbers, hyphens, and underscores", 400⟩
    else if aliasOccupied db s then
      .error ⟨"Custom alias is already taken", 409⟩
    else .ok s
  else genRandomLoop db supply retries 0

/-! ### urlService.updateUrl / deleteUrl -/

/-- JSON values a validated route patch can carry for a field. -/
inductive JVal where
  | jstr (s : String)
  | jbool (b : Bool)
  | jtime (t : Nat)
  | jnull
deriving Repr, DecidableEq

/-- The dynamic allow-list of `updateUrl` (snake_case column names). -/
def allowedUpdates : List String :=
  ["title", "description", "is_active", "is_public", "expires_at"]

/-- Effect of one `key = $n` SET clause on a row (typed per column). -/
def applyField (r : UrlRow) (kv : String × JVal) : UrlRow :=
  match kv with
  | ("title", .jstr s) => { r with title := some s }
  | ("title", .jnull) => { r with title := none }
  | ("description", .jstr s) => { r with descr := some s }
  | ("description", .jnull) => { r with descr := none }
  | ("is_active", .jbool b) => { r with isActive := b }
  | ("is_public", .jbool b) => { r with isPublic := b }
  | ("expires_at", .jtime t) => { r with expiresAt := some t }
  | ("expires_at", .jnull) => { r with expiresAt := none }
  | _ => r

/-- Whether a row is hit by `WHERE id = $_ AND user_id = $_`. -/
def ownedBy (r : UrlRow) (urlId userId : Nat) : Bool :=
  r.id == urlId && r.userId == some userId

/-- `updateUrl(urlId, userId, updates)`.
Keys of the patch are filtered through `allowedUpdates`; an empty remainder
throws 400.  The UPDATE touches exactly the rows matching both id and
owner (also bumping `updated_at`); zero returned rows throw the combined
404 `URL not found or access denied`.  On success the cache entry of the
updated short code is invalidated.  The result triple is (outcome, urls
table afterwards, cache afterwards); the source returns a camelCase
projection of the RETURNING row, modelled here by the row itself. -/
def updateUrl (db : List UrlRow) (cache : Cache) (cacheUp : Bool) (now : Nat)
    (urlId userId : Nat) (updates : List (String × JVal)) :
    Except AppErr UrlRow × List UrlRow × Cache :=
  let fields := updates.filter (fun kv => allowedUpdates.contains kv.1)
  if fields.isEmpty then
    (.error ⟨"No valid fields to update", 400⟩, db, cache)
  else
    let db2 := db.map (fun r =>
      if ownedBy r urlId userId then
        { fields.foldl applyField r with updatedAt := now }
      else r)
    match db2.find? (fun r => ownedBy r urlId userId) with
    | none => (.error ⟨"URL not found or access denied", 404⟩, db2, cache)
    | some r => (.ok r, db2, redisDel cacheUp cache ("url:" ++ r.shortCode))

/-- `deleteUrl(urlId, userId)`: DELETE the rows matching both id and owner,
RETURNING short_code; zero deleted rows throw the combined 404.  On
success the cache entry of the deleted short code is invalidated. -/
def deleteUrl (db : List UrlRow) (cache : Cache) (cacheUp : Bool)
    (urlId userId : Nat) : Except AppErr Bool × List UrlRow × Cache :=
  let deleted := db.filter (fun r => ownedBy r urlId userId)
  let remaining := db.filter (fun r => !(ownedBy r urlId userId))
  match deleted with
  | [] => (.error ⟨"URL not found or access denied", 404⟩, remaining, cache)
  | r :: _ => (.ok true, remaining, redisDel cacheUp cache ("url:" ++ r.shortCode))

/-! ### analyticsService: detectDeviceType, detectBot, recordClick -/

/-- `pat` occurs at the start of `s` (character lists). -/
def charsStartWith : List Char → List Char → Bool
  | [], _ => true
  | _ :: _, [] => false
  | a :: as, b :: bs => a == b && charsStartWith as bs

/-- `pat` occurs somewhere inside `s` (character lists). -/
def charsContain (pat : List Char) : List Char → Bool
  | [] => pat.isEmpty
  | c :: rest => charsStartWith pat (c :: rest) || charsContain pat rest

/-- JavaScript `s.includes(pat)`. -/
def strIncludes (s pat : String) : Bool :=
  charsContain pat.toList s.toList

/-- ASCII lowercasing of one character, which is what JavaScript
`toLowerCase` does on the agent strings compared here. -/
def lowerChar (c : Char) : Char :=
  if c.isUpper then Char.ofNat (c.toNat + 32) else c

/-- JavaScript `s.toLowerCase()` (ASCII range). -/
def strToLower (s : String) : String :=
  String.mk (s.toList.map lowerChar)

/-- `detectDeviceType(userAgent)`: lowercase token scan, defaulting to
desktop. -/
def detectDeviceType (userAgent : String) : String :=
  let ua := strToLower userAgent
  if strIncludes ua "mobile" || strIncludes ua "android" || strIncludes ua "iphone" then
    "mobile"
  else if strIncludes ua "tablet" || strIncludes ua "ipad" then
    "tablet"
  else if strIncludes ua "smart-tv" || strIncludes ua "tv" then
    "tv"
  else "desktop"

/-- The bot-token list of `detectBot`. -/
def botPatterns : List String :=
  ["bot", "crawler", "spider", "scraper", "curl", "wget", "python",
   "googlebot", "bingbot", "slurp", "duckduckbot", "baiduspider",
   "yandexbot", "facebookexternalhit", "twitterbot", "linkedinbot"]

/-- `detectBot(userAgent)`: any bot token occurs in the lowercased agent. -/
def detectBot (userAgent : String) : Bool :=
  botPatterns.any (fun pat => strIncludes (strToLower userAgent) pat)

/-- A persisted `url_clicks` row. -/
structure ClickEvent where
  urlId : Nat
  ipAddress : String
  userAgent : String
  referer : String
  country : Option String
  region : Option String
  city : Option String
  deviceType : String
  browser : String
  os : String
  isBot : Bool
deriving Repr, DecidableEq

/-- Geolocation data as returned by `geoip.lookup`. -/
structure GeoData where
  country : String
  region : String
  city : String
deriving Repr, DecidableEq

/-- Feature flags of the analytics service (from the environment). -/
structure AnalyticsCfg where
  enableGeolocation : Bool
  enableUserAgentParsing : Bool
deriving Repr, DecidableEq

/-- Behaviour of the external collaborators during one `recordClick`:
the `geoip.lookup` answer for the request IP (`none` when the lookup finds
nothing or fails), the `useragent.parse` family/os strings, and whether
the INSERT into `url_clicks` raises. -/
structure ExternalEnv where
  geo : Option GeoData
  agentFamily : String
  agentOsFamily : String
  insertFails : Bool
deriving Repr, DecidableEq

/-- JavaScript or-defaulting of the useragent fields to the unknown
label. -/
def orUnknown (s : String) : String :=
  if s == "" then "unknown" else s

/-- An inbound redirect request, reduced to what `handleRedirect`,
`recordClick` and the limiter read from it.  `userAgent` and `referer` are
already defaulted to the empty string as in the source.  `password` is
`req.query.password || req.headers[x-url-password]` with `none` for
absent; note the source later treats an empty provided password as absent
(truthiness).  `rateExceeded` is the verdict of the redirect limiter for
this client and code. -/
structure Request where
  shortCode : String
  ip : String
  userAgent : String
  referer : String
  preview : Bool
  password : Option String
  rateExceeded : Bool
deriving Repr, DecidableEq

/-- The try-block of `recordClick(urlId, req)` (everything that can
raise): geolocation is consulted only when enabled and the IP is a real
remote address; useragent parsing only when enabled and an agent string
is present; then the INSERT runs, which may raise. -/
def recordClickBody (clicks : List ClickEvent) (cfg : AnalyticsCfg)
    (env : ExternalEnv) (urlId : Nat) (req : Request) :
    Except String (Nat × List ClickEvent) :=
  let geoData : Option GeoData :=
    if cfg.enableGeolocation && req.ip != "" && req.ip != "127.0.0.1" && req.ip != "::1" then
      env.geo
    else none
  let dev : String × String × String × Bool :=
    if cfg.enableUserAgentParsing && req.userAgent != "" then
      (detectDeviceType req.userAgent, orUnknown env.agentFamily,
       orUnknown env.agentOsFamily, detectBot req.userAgent)
    else ("unknown", "unknown", "unknown", false)
  if env.insertFails then .error "url_clicks insert failed"
  else
    let ev : ClickEvent :=
      ⟨urlId, req.ip, req.userAgent, req.referer,
       geoData.map (fun g => g.country), geoData.map (fun g => g.region),
       geoData.map (fun g => g.city), dev.1, dev.2.1, dev.2.2.1, dev.2.2.2⟩
    .ok (clicks.length + 1, clicks ++ [ev])

/-- `recordClick`: the catch-all around the body maps any internal error
to a logged `null` return; analytics failures never propagate. -/
def recordClick (clicks : List ClickEvent) (cfg : AnalyticsCfg)
    (env : ExternalEnv) (urlId : Nat) (req : Request) :
    Option Nat × List ClickEvent :=
  match recordClickBody clicks cfg env urlId req with
  | .ok (clickId, clicks2) => (some clickId, clicks2)
  | .error _ => (none, clicks)

/-! ### handleRedirect (the redirect controller) -/

/-- Terminal outcome of one redirect request, one constructor per response
the controller can send. -/
inductive Outcome where
  | rateLimited
  | notFound
  | gone
  | botInfo (originalUrl : String)
  | preview (originalUrl : String)
  | passwordRequired
  | invalidPassword
  | redirect (originalUrl : String)
deriving Repr, DecidableEq

/-- `handleRedirect(req, res)`, in source order: rate limit; look the code
up (cache then store); 404 on `null`; 410 when the served value has
`isActive` false; fire `recordClick` without awaiting it (`.catch` only);
bot requests get a JSON body with the original URL; `?preview=true`
requests get a metadata JSON; the password gate runs only after those two
branches, comparing via the external `verify` (bcrypt.compare); finally
the 301 redirect.  The result is (outcome, cache afterwards, url_clicks
afterwards); the clicks component carries the effect of the dispatched
recording once it has run. -/
def handleRedirect (db : List UrlRow) (cache : Cache) (clicks : List ClickEvent)
    (cacheUp : Bool) (now : Nat) (req : Request)
    (verify : String → String → Bool) (cfg : AnalyticsCfg) (env : ExternalEnv) :
    Outcome × Cache × List ClickEvent :=
  if req.rateExceeded then (.rateLimited, cache, clicks)
  else
    let ro := getUrlByShortCode db cache cacheUp now req.shortCode
    match ro.result with
    | none => (.notFound, ro.cache, clicks)
    | some u =>
      if !u.isActive then (.gone, ro.cache, clicks)
      else
        let clicks2 := (recordClick clicks cfg env u.id req).2
        if detectBot req.userAgent then (.botInfo u.originalUrl, ro.cache, clicks2)
        else if req.preview then (.preview u.originalUrl, ro.cache, clicks2)
        else
          match u.passwordHash with
          | some h =>
            match req.password with
            | none => (.passwordRequired, ro.cache, clicks2)
            | some p =>
              if p == "" then (.passwordRequired, ro.cache, clicks2)
              else if verify p h then (.redirect u.originalUrl, ro.cache, clicks2)
              else (.invalidPassword, ro.cache, clicks2)
          | none => (.redirect u.originalUrl, ro.cache, clicks2)

/-! ### Concrete fixtures for witnesses and counterexamples -/

/-- A live, public, anonymous-owner-free demo link. -/
def baseRow : UrlRow :=
  ⟨1, some 10, "https://example.com", "abc123", none, none, none,
   true, true, none, 0, 0, 0, none, none⟩

/-- The demo link with a password hash stored on the row. -/
def pwRow : UrlRow := { baseRow with passwordHash := some "bcrypt-hash" }

/-- The demo link after deactivation. -/
def inactiveRow : UrlRow := { baseRow with isActive := false }

/-- The demo link with an expiry timestamp in the past of `now = 100`. -/
def expiredRow : UrlRow := { baseRow with expiresAt := some 50 }

/-- A plain browser request for the demo code: no preview, no password,
not rate limited, non-bot user agent. -/
def plainReq : Request :=
  ⟨"abc123", "93.184.216.34", "Mozilla/5.0", "", false, none, false⟩

/-- Both analytics features enabled. -/
def cfgAll : AnalyticsCfg := ⟨true, true⟩

/-- Healthy collaborators: geolocation finds nothing, useragent parses,
the clicks INSERT succeeds. -/
def envOk : ExternalEnv := ⟨none, "Chrome", "Windows", false⟩

/-- A concrete stand-in for `bcrypt.compare`: the hash of a password is
the password itself. -/
def eqVerify : String → String → Bool := fun p h => p == h

/-! ### Helper lemmas about the read path -/

/-- A cache hit returns the cached value as is: no store query, no cache
write. -/
theorem getUrl_cache_hit (db : List UrlRow) (cache : Cache) (cacheUp : Bool)
    (now : Nat) (code : String) (u : UrlData)
    (hc : redisGet cacheUp cache ("url:" ++ code) = some u) :
    getUrlByShortCode db cache cacheUp now code = ⟨some u, cache, 0⟩ := by
  unfold getUrlByShortCode
  rw [hc]

/-- A cache miss with no active row: one store query, nothing cached. -/
theorem getUrl_miss_absent (db : List UrlRow) (cache : Cache) (cacheUp : Bool)
    (now : Nat) (code : String)
    (hc : redisGet cacheUp cache ("url:" ++ code) = none)
    (hdb : dbFindActive db code = none) :
    getUrlByShortCode db cache cacheUp now code = ⟨none, cache, 1⟩ := by
  unfold getUrlByShortCode
  rw [hc, hdb]

/-- A cache miss hitting an expired row: one store query, `null` returned,
nothing cached. -/
theorem getUrl_miss_expired (db : List UrlRow) (cache : Cache) (cacheUp : Bool)
    (now : Nat) (code : String) (r : UrlRow)
    (hc : redisGet cacheUp cache ("url:" ++ code) = none)
    (hdb : dbFindActive db code = some r)
    (hexp : rowExpired r now = true) :
    getUrlByShortCode db cache cacheUp now code = ⟨none, cache, 1⟩ := by
  unfold getUrlByShortCode
  rw [hc, hdb]
  simp [hexp]

/-- A cache miss hitting a live row: the projection is returned and
repopulated into the cache. -/
theorem getUrl_miss_live (db : List UrlRow) (cache : Cache) (cacheUp : Bool)
    (now : Nat) (code : String) (r : UrlRow)
    (hc : redisGet cacheUp cache ("url:" ++ code) = none)
    (hdb : dbFindActive db code = some r)
    (hexp : rowExpired r now = false) :
    getUrlByShortCode db cache cacheUp now code =
      ⟨some (projectUrlData r),
       redisSet cacheUp cache ("url:" ++ (projectUrlData r).shortCode) (projectUrlData r), 1⟩ := by
  unfold getUrlByShortCode
  rw [hc, hdb]
  simp [hexp]

/-- `handleRedirect` under a 404 resolution. -/
theorem handleRedirect_notFound (db : List UrlRow) (cache : Cache)
    (clicks : List ClickEvent) (cacheUp : Bool) (now : Nat) (req : Request)
    (verify : String → String → Bool) (cfg : AnalyticsCfg) (env : ExternalEnv)
    (h0 : req.rateExceeded = false)
    (h : (getUrlByShortCode db cache cacheUp now req.shortCode).result = none) :
    handleRedirect db cache clicks cacheUp now req verify cfg env =
      (.notFound, (getUrlByShortCode db cache cacheUp now req.shortCode).cache, clicks) := by
  unfold handleRedirect
  rw [h0]
  simp only [Bool.false_eq_true, if_false, h]

/-- `handleRedirect` when the served value is live, the request is neither
bot nor preview, and the served value has no password hash: the click is
dispatched and the 301 redirect is returned. -/
theorem handleRedirect_live_plain (db : List UrlRow) (cache : Cache)
    (clicks : List ClickEvent) (cacheUp : Bool) (now : Nat) (req : Request)
    (verify : String → String → Bool) (cfg : AnalyticsCfg) (env : ExternalEnv)
    (u : UrlData)
    (h0 : req.rateExceeded = false)
    (h : (getUrlByShortCode db cache cacheUp now req.shortCode).result = some u)
    (hA : u.isActive = true)
    (hb : detectBot req.userAgent = false)
    (hp : req.preview = false)
    (hpw : u.passwordHash = none) :
    handleRedirect db cache clicks cacheUp now req verify cfg env =
      (.redirect u.originalUrl,
       (getUrlByShortCode db cache cacheUp now req.shortCode).cache,
       (recordClick clicks cfg env u.id req).2) := by
  unfold handleRedirect
  rw [h0]
  simp only [Bool.false_eq_true, if_false, h, hA, hb, hp, hpw, Bool.not_true]

/-! ### Claim theorems -/

/-- Claim C1.  The claim says a link with `passwordHash` set yields
PasswordRequired without the correct password and Redirect with it.  The
code disagrees: `getUrlByShortCode` serves `projectUrlData`, whose
`passwordHash` is always absent, so `handleRedirect` finds no hash and
redirects with no password at all.  This theorem evaluates the code at the
failing input: a stored row carrying a password hash, a plain request
supplying no password, and the outcome is the 301 redirect. -/
theorem password_protected_link_redirects_without_password :
    (handleRedirect [pwRow] [] [] true 100 plainReq eqVerify cfgAll envOk).1
      = Outcome.redirect "https://example.com"
    ∧ pwRow.passwordHash = some "bcrypt-hash"
    ∧ plainReq.password = none
    ∧ (projectUrlData pwRow).passwordHash = none := by
  refine ⟨?_, rfl, rfl, rfl⟩
  decide

/-- Claim C2, counterexample.  An inactive stored link resolves to the
same 404 NotFound outcome as a code that matches nothing (the SELECT
filters on `is_active = true`), not to a dedicated outcome; and a cache
hit on an entry whose `expiresAt` has passed is served as a 301 Redirect,
because the cached value is never re-checked for expiry.  Both halves of
the claim (dedicated ExpiredOrInactive outcome; never Redirect) fail. -/
theorem expired_inactive_conflated_counterexample :
    (handleRedirect [inactiveRow] [] [] true 100 plainReq eqVerify cfgAll envOk).1
      = Outcome.notFound
    ∧ (handleRedirect [] [] [] true 100 plainReq eqVerify cfgAll envOk).1
      = Outcome.notFound
    ∧ inactiveRow.isActive = false
    ∧ (handleRedirect [expiredRow] [("url:abc123", projectUrlData expiredRow)] []
         true 100 plainReq eqVerify cfgAll envOk).1
      = Outcome.redirect "https://example.com"
    ∧ expiredRow.expiresAt = some 50 ∧ 50 < 100 := by
  refine ⟨?_, ?_, rfl, ?_, rfl, by decide⟩ <;> decide

/-- Claim C2, amended.  What the code actually does with a dead link:
(1) on a cache miss, a code whose rows are all inactive resolves to
NotFound (the very outcome of a nonexistent code); (2) on a cache miss, an
active but expired row also resolves to NotFound; (3) a cache hit whose
entry is active but past its expiry is served as a Redirect (no expiry
re-check on cached entries), for a plain non-bot non-preview request. -/
theorem expired_inactive_actual_behaviour :
    (∀ (db : List UrlRow) (cache : Cache) (clicks : List ClickEvent)
       (cacheUp : Bool) (now : Nat) (req : Request)
       (verify : String → String → Bool) (cfg : AnalyticsCfg) (env : ExternalEnv),
       req.rateExceeded = false →
       redisGet cacheUp cache ("url:" ++ req.shortCode) = none →
       (∀ r ∈ db, r.shortCode = req.shortCode → r.isActive = false) →
       (handleRedirect db cache clicks cacheUp now req verify cfg env).1 = Outcome.notFound)
    ∧ (∀ (db : List UrlRow) (cache : Cache) (clicks : List ClickEvent)
       (cacheUp : Bool) (now : Nat) (req : Request)
       (verify : String → String → Bool) (cfg : AnalyticsCfg) (env : ExternalEnv)
       (r : UrlRow) (e : Nat),
       req.rateExceeded = false →
       redisGet cacheUp cache ("url:" ++ req.shortCode) = none →
       dbFindActive db req.shortCode = some r →
       r.expiresAt = some e → e < now →
       (handleRedirect db cache clicks cacheUp now req verify cfg env).1 = Outcome.notFound)
    ∧ (∀ (db : List UrlRow) (cache : Cache) (clicks : List ClickEvent)
       (cacheUp : Bool) (now : Nat) (req : Request)
       (verify : String → String → Bool) (cfg : AnalyticsCfg) (env : ExternalEnv)
       (u : UrlData) (e : Nat),
       req.rateExceeded = false →
       redisGet cacheUp cache ("url:" ++ req.shortCode) = some u →
       u.isActive = true → u.expiresAt = some e → e < now →
       detectBot req.userAgent = false → req.preview = false →
       u.passwordHash = none →
       (handleRedirect db cache clicks cacheUp now req verify cfg env).1
         = Outcome.redirect u.originalUrl) := by
  refine ⟨?_, ?_, ?_⟩
  · intro db cache clicks cacheUp now req verify cfg env h0 hc hdead
    have hdb : dbFindActive db req.shortCode = none := by
      apply List.find?_eq_none.mpr
      intro r hr
      simp only [Bool.and_eq_true, beq_iff_eq, not_and]
      intro hcode
      simp [hdead r hr hcode]
    rw [handleRedirect_notFound db cache clicks cacheUp now req verify cfg env h0
      (by rw [getUrl_miss_absent db cache cacheUp now req.shortCode hc hdb])]
  · intro db cache clicks cacheUp now req verify cfg env r e h0 hc hdb he hlt
    have hexp : rowExpired r now = true := by
      unfold rowExpired
      rw [he]
      simpa using hlt
    rw [handleRedirect_notFound db cache clicks cacheUp now req verify cfg env h0
      (by rw [getUrl_miss_expired db cache cacheUp now req.shortCode r hc hdb hexp])]
  · intro db cache clicks cacheUp now req verify cfg env u e h0 hc hA he hlt hb hp hpw
    rw [handleRedirect_live_plain db cache clicks cacheUp now req verify cfg env u h0
      (by rw [getUrl_cache_hit db cache cacheUp now req.shortCode u hc]) hA hb hp hpw]

/-- Claim C2, amended, witness: the three parts applied at the concrete
inactive link, the concrete expired link, and the concrete stale cache
entry. -/
theorem expired_inactive_actual_behaviour_witness :
    (handleRedirect [inactiveRow] [] [] true 100 plainReq eqVerify cfgAll envOk).1
      = Outcome.notFound
    ∧ (handleRedirect [expiredRow] [] [] true 100 plainReq eqVerify cfgAll envOk).1
      = Outcome.notFound
    ∧ (handleRedirect [] [("url:abc123", projectUrlData expiredRow)] []
         true 100 plainReq eqVerify cfgAll envOk).1
      = Outcome.redirect "https://example.com" :=
  ⟨expired_inactive_actual_behaviour.1 [inactiveRow] [] [] true 100 plainReq
      eqVerify cfgAll envOk (by decide) (by decide) (by decide),
   expired_inactive_actual_behaviour.2.1 [expiredRow] [] [] true 100 plainReq
      eqVerify cfgAll envOk expiredRow 50 (by decide) (by decide) (by decide)
      (by decide) (by decide),
   expired_inactive_actual_behaviour.2.2 [] [("url:abc123", projectUrlData expiredRow)]
      [] true 100 plainReq eqVerify cfgAll envOk (projectUrlData expiredRow) 50
      (by decide) (by decide) (by decide) (by decide) (by decide) (by decide)
      (by decide) (by decide)⟩

/-- Claim C3.  The claim says an update-route patch setting
`isActive = false` is applied and a later resolve stops redirecting.  The
route validates camelCase keys (`isActive`) but `updateUrl` filters keys
through a snake_case allow-list (`is_active`), so the patch of the route is
dropped entirely and the call fails with 400 `No valid fields to update`,
leaving the row unchanged; the same patch under the snake_case key the
route never produces would have been applied.  This theorem evaluates
both calls. -/
theorem updateUrl_camelCase_isActive_rejected :
    updateUrl [baseRow] [] true 100 1 10 [("isActive", JVal.jbool false)]
      = (.error ⟨"No valid fields to update", 400⟩, [baseRow], [])
    ∧ updateUrl [baseRow] [] true 100 1 10 [("is_active", JVal.jbool false)]
      = (.ok { baseRow with isActive := false, updatedAt := 100 },
         [{ baseRow with isActive := false, updatedAt := 100 }], []) := by
  constructor <;> decide

/-- Claim C4, counterexample.  The claim says the first resolve of a
nonexistent code stores a tombstone so the second resolve hits no store.
The code never writes anything on a miss: the first call leaves the cache
empty, and the second call issues a store query again
(`storeQueries = 1` both times). -/
theorem tombstone_counterexample :
    getUrlByShortCode [] [] true 100 "nope" = ⟨none, [], 1⟩
    ∧ getUrlByShortCode [] (getUrlByShortCode [] [] true 100 "nope").cache
        true 100 "nope" = ⟨none, [], 1⟩ := by
  constructor <;> decide

/-- Claim C4, amended.  Repeated resolves of a code with no active row do
return NotFound consistently, but no tombstone is ever stored: each call
leaves the cache exactly as it was and issues one store query, so the
second (and every later) call hits the store again. -/
theorem miss_not_tombstoned (db : List UrlRow) (cache : Cache) (cacheUp : Bool)
    (now : Nat) (code : String)
    (hc : redisGet cacheUp cache ("url:" ++ code) = none)
    (hdb : dbFindActive db code = none) :
    getUrlByShortCode db cache cacheUp now code = ⟨none, cache, 1⟩
    ∧ getUrlByShortCode db (getUrlByShortCode db cache cacheUp now code).cache
        cacheUp now code = ⟨none, cache, 1⟩ := by
  have h1 := getUrl_miss_absent db cache cacheUp now code hc hdb
  refine ⟨h1, ?_⟩
  rw [h1]
  exact h1

/-- Claim C4, amended, witness: the empty store and empty cache. -/
theorem miss_not_tombstoned_witness :
    getUrlByShortCode [] [] true 100 "nope" = ⟨none, [], 1⟩
    ∧ getUrlByShortCode [] (getUrlByShortCode [] [] true 100 "nope").cache
        true 100 "nope" = ⟨none, [], 1⟩ :=
  miss_not_tombstoned [] [] true 100 "nope" (by decide) (by decide)

/-- Claim C5, counterexample.  The claim says every malformed alias fails
with a validation error.  The empty string is malformed (length 0 < 3),
but `if (customAlias)` is a truthiness test, so an empty alias falls
through to random generation and the call succeeds with a random code. -/
theorem empty_alias_counterexample :
    generateShortCode [] (some "") (fun _ => "xK9q2p") 5 = .ok "xK9q2p"
    ∧ ("" : String).length < customAliasMinLength := by
  constructor <;> decide

/-- Claim C5, amended.  For every NON-EMPTY alias the claimed behaviour
holds: aliases outside 3..50 fail with the length 400; aliases with a
character outside letters, digits, hyphen, underscore fail with the
charset 400; well-formed aliases equal to any existing short code or
custom alias fail with the 409 AliasTaken; all other well-formed aliases
are returned as the short code.  The empty alias is instead treated as
absent. -/
theorem generateShortCode_custom_alias_spec (db : List UrlRow) (s : String)
    (supply : Nat → String) (retries : Nat) (hs : s ≠ "") :
    (s.length < customAliasMinLength ∨ customAliasMaxLength < s.length →
      generateShortCode db (some s) supply retries
        = .error ⟨"Custom alias must be between 3 and 50 characters", 400⟩)
    ∧ (customAliasMinLength ≤ s.length → s.length ≤ customAliasMaxLength →
      s.toList.all validAliasChar = false →
      generateShortCode db (some s) supply retries
        = .error ⟨"Custom alias can only contain letters, numbers, hyphens, and underscores", 400⟩)
    ∧ (customAliasMinLength ≤ s.length → s.length ≤ customAliasMaxLength →
      s.toList.all validAliasChar = true → aliasOccupied db s = true →
      generateShortCode db (some s) supply retries
        = .error ⟨"Custom alias is already taken", 409⟩)
    ∧ (customAliasMinLength ≤ s.length → s.length ≤ customAliasMaxLength →
      s.toList.all validAliasChar = true → aliasOccupied db s = false →
      generateShortCode db (some s) supply retries = .ok s) := by
  have hts : (s != "") = true := by simpa using hs
  refine ⟨?_, ?_, ?_, ?_⟩
  · intro hlen
    unfold generateShortCode
    simp only [hts, if_true, Option.getD_some]
    rw [if_pos]
    simp only [Bool.or_eq_true, decide_eq_true_eq]
    exact hlen
  · intro hmin hmax hbad
    have hlneg : ¬((decide (s.length < customAliasMinLength)
        || decide (s.length > customAliasMaxLength)) = true) := by
      simp only [Bool.or_eq_true, decide_eq_true_eq, not_or]
      exact ⟨Nat.not_lt.mpr hmin, Nat.not_lt.mpr hmax⟩
    have hcpos : (!(s.toList.all validAliasChar)) = true := by
      rw [hbad]
      rfl
    unfold generateShortCode
    simp only [hts, if_true, Option.getD_some]
    rw [if_neg hlneg, if_pos hcpos]
  · intro hmin hmax hgood htaken
    have hlneg : ¬((decide (s.length < customAliasMinLength)
        || decide (s.length > customAliasMaxLength)) = true) := by
      simp only [Bool.or_eq_true, decide_eq_true_eq, not_or]
      exact ⟨Nat.not_lt.mpr hmin, Nat.not_lt.mpr hmax⟩
    have hcneg : ¬((!(s.toList.all validAliasChar)) = true) := by
      rw [hgood]
      simp
    unfold generateShortCode
    simp only [hts, if_true, Option.getD_some]
    rw [if_neg hlneg, if_neg hcneg, if_pos htaken]
  · intro hmin hmax hgood hfree
    have hlneg : ¬((decide (s.length < customAliasMinLength)
        || decide (s.length > customAliasMaxLength)) = true) := by
      simp only [Bool.or_eq_true, decide_eq_true_eq, not_or]
      exact ⟨Nat.not_lt.mpr hmin, Nat.not_lt.mpr hmax⟩
    have hcneg : ¬((!(s.toList.all validAliasChar)) = true) := by
      rw [hgood]
      simp
    have hfneg : ¬(aliasOccupied db s = true) := by
      rw [hfree]
      simp
    unfold generateShortCode
    simp only [hts, if_true, Option.getD_some]
    rw [if_neg hlneg, if_neg hcneg, if_neg hfneg]

/-- Claim C5, amended, witness: the four branches at concrete aliases
(too short, bad character, taken, and free). -/
theorem generateShortCode_custom_alias_spec_witness :
    generateShortCode [] (some "ab") (fun _ => "x") 5
      = .error ⟨"Custom alias must be between 3 and 50 characters", 400⟩
    ∧ generateShortCode [] (some "my link") (fun _ => "x") 5
      = .error ⟨"Custom alias can only contain letters, numbers, hyphens, and underscores", 400⟩
    ∧ generateShortCode [{ baseRow with customAlias := some "my-link" }]
        (some "my-link") (fun _ => "x") 5
      = .error ⟨"Custom alias is already taken", 409⟩
    ∧ generateShortCode [] (some "my-link") (fun _ => "x") 5 = .ok "my-link" :=
  ⟨(generateShortCode_custom_alias_spec [] "ab" (fun _ => "x") 5 (by decide)).1
      (by decide),
   (generateShortCode_custom_alias_spec [] "my link" (fun _ => "x") 5 (by decide)).2.1
      (by decide) (by decide) (by decide),
   (generateShortCode_custom_alias_spec [{ baseRow with customAlias := some "my-link" }]
      "my-link" (fun _ => "x") 5 (by decide)).2.2.1
      (by decide) (by decide) (by decide) (by decide),
   (generateShortCode_custom_alias_spec [] "my-link" (fun _ => "x") 5 (by decide)).2.2.2
      (by decide) (by decide) (by decide) (by decide)⟩

/-- Claim C6.  Click recording is decoupled from the redirect: (1) the
outcome of `handleRedirect` is the same whatever the analytics
configuration and however the recording collaborators behave (slow, geo
lookup failing, INSERT raising) — the record call is dispatched, never
awaited; (2) when the clicks INSERT raises, `recordClick` returns the
logged `null` and leaves the clicks table alone instead of raising;
(3) when the INSERT works, `recordClick` succeeds even when the
geolocation lookup produced nothing. -/
theorem recording_is_best_effort :
    (∀ (db : List UrlRow) (cache : Cache) (clicks : List ClickEvent)
       (cacheUp : Bool) (now : Nat) (req : Request)
       (verify : String → String → Bool) (cfg cfg2 : AnalyticsCfg)
       (env env2 : ExternalEnv),
       (handleRedirect db cache clicks cacheUp now req verify cfg env).1
         = (handleRedirect db cache clicks cacheUp now req verify cfg2 env2).1)
    ∧ (∀ (clicks : List ClickEvent) (cfg : AnalyticsCfg) (env : ExternalEnv)
       (urlId : Nat) (req : Request), env.insertFails = true →
       recordClick clicks cfg env urlId req = (none, clicks))
    ∧ (∀ (clicks : List ClickEvent) (cfg : AnalyticsCfg) (env : ExternalEnv)
       (urlId : Nat) (req : Request), env.insertFails = false →
       (recordClick clicks cfg env urlId req).1 = some (clicks.length + 1)) := by
  refine ⟨?_, ?_, ?_⟩
  · intro db cache clicks cacheUp now req verify cfg cfg2 env env2
    simp only [handleRedirect]
    repeat (first | rfl | split)
  · intro clicks cfg env urlId req h
    unfold recordClick recordClickBody
    simp [h]
  · intro clicks cfg env urlId req h
    unfold recordClick recordClickBody
    simp [h]

/-- Claim C6, witness: with the demo link, the outcome is the same 301
redirect whether the collaborators are healthy or the INSERT raises, and
the failing record call returns `null` while the succeeding one records. -/
theorem recording_is_best_effort_witness :
    (handleRedirect [baseRow] [] [] true 100 plainReq eqVerify cfgAll envOk).1
      = (handleRedirect [baseRow] [] [] true 100 plainReq eqVerify ⟨false, false⟩
          ⟨none, "", "", true⟩).1
    ∧ recordClick [] cfgAll ⟨none, "", "", true⟩ 1 plainReq = (none, [])
    ∧ (recordClick [] cfgAll envOk 1 plainReq).1 = some 1 :=
  ⟨recording_is_best_effort.1 [baseRow] [] [] true 100 plainReq eqVerify
      cfgAll ⟨false, false⟩ envOk ⟨none, "", "", true⟩,
   recording_is_best_effort.2.1 [] cfgAll ⟨none, "", "", true⟩ 1 plainReq (by decide),
   recording_is_best_effort.2.2 [] cfgAll envOk 1 plainReq (by decide)⟩

/-- Claim C7.  A failing cache read is absorbed by the redis wrapper
(the raw command errors, `get` returns `null`), and the resolution falls
through to the store and completes with the answer of the store — one store
query, the cache untouched, no error surfaced to the caller. -/
theorem cache_failure_falls_through :
    ∀ (db : List UrlRow) (cache : Cache) (now : Nat) (code : String),
      redisRawGet false cache ("url:" ++ code) = .error "redis connection error"
      ∧ getUrlByShortCode db cache false now code = ⟨storeLookup db now code, cache, 1⟩ := by
  intro db cache now code
  refine ⟨rfl, ?_⟩
  unfold getUrlByShortCode storeLookup redisGet redisRawGet redisSet
  simp only [Bool.false_eq_true, if_false]
  cases hdb : dbFindActive db code with
  | none => rfl
  | some r =>
    cases hexp : rowExpired r now with
    | false => simp [hexp]
    | true => simp [hexp]

/-- Claim C8, counterexample.  The claim says only Redirect resolutions
record a click.  The code dispatches `recordClick` right after the
active check, before the preview (and bot and password) branches: a
preview request on a live link ends in the Preview outcome AND a
persisted click. -/
theorem click_recorded_on_preview_counterexample :
    (handleRedirect [baseRow] [] [] true 100 { plainReq with preview := true }
        eqVerify cfgAll envOk).1 = Outcome.preview "https://example.com"
    ∧ (handleRedirect [baseRow] [] [] true 100 { plainReq with preview := true }
        eqVerify cfgAll envOk).2.2 ≠ ([] : List ClickEvent) := by
  constructor <;> decide

/-- Claim C8, amended.  Click recording is dispatched exactly when the
rate check passes and the resolution serves a value with `isActive`
true — which covers the Redirect outcome but also the bot response, the
Preview response and both password 401s; only RateLimited, NotFound and
the 410 skip recording. -/
theorem clicks_recorded_when_link_live :
    ∀ (db : List UrlRow) (cache : Cache) (clicks : List ClickEvent)
      (cacheUp : Bool) (now : Nat) (req : Request)
      (verify : String → String → Bool) (cfg : AnalyticsCfg) (env : ExternalEnv),
      (handleRedirect db cache clicks cacheUp now req verify cfg env).2.2 =
        if req.rateExceeded then clicks
        else
          match (getUrlByShortCode db cache cacheUp now req.shortCode).result with
          | none => clicks
          | some u =>
            if u.isActive then (recordClick clicks cfg env u.id req).2 else clicks := by
  intro db cache clicks cacheUp now req verify cfg env
  simp only [handleRedirect]
  repeat (first | rfl | split)
  all_goals simp_all
  all_goals repeat (first | rfl | split)

/-- The UPDATE of `updateUrl` touches no row when no row matches both the
id and the owner. -/
theorem map_untouched_when_unowned (db : List UrlRow) (urlId userId : Nat)
    (f : UrlRow → UrlRow)
    (hown : ∀ r ∈ db, ownedBy r urlId userId = false) :
    db.map (fun r => if ownedBy r urlId userId then f r else r) = db := by
  induction db with
  | nil => rfl
  | cons a l ih =>
    simp only [List.map_cons, List.cons.injEq]
    refine ⟨?_, ih (fun r hr => hown r (List.mem_cons_of_mem a hr))⟩
    simp [hown a (List.mem_cons_self a l)]

/-- The free-alias branch of `generateShortCode`: a well-formed, untaken
alias is returned as the short code. -/
theorem genAlias_free_ok (db : List UrlRow) (s : String) (supply : Nat → String)
    (retries : Nat) (hs : s ≠ "")
    (h1 : customAliasMinLength ≤ s.length) (h2 : s.length ≤ customAliasMaxLength)
    (h3 : s.toList.all validAliasChar = true)
    (h4 : aliasOccupied db s = false) :
    generateShortCode db (some s) supply retries = .ok s := by
  have hts : (s != "") = true := by simpa using hs
  have hlneg : ¬((decide (s.length < customAliasMinLength)
      || decide (s.length > customAliasMaxLength)) = true) := by
    simp only [Bool.or_eq_true, decide_eq_true_eq, not_or]
    exact ⟨Nat.not_lt.mpr h1, Nat.not_lt.mpr h2⟩
  have hcneg : ¬((!(s.toList.all validAliasChar)) = true) := by
    rw [h3]
    simp
  have hfneg : ¬(aliasOccupied db s = true) := by
    rw [h4]
    simp
  unfold generateShortCode
  simp only [hts, if_true, Option.getD_some]
  rw [if_neg hlneg, if_neg hcneg, if_neg hfneg]

/-- Claim C9.  Updates and deletes attempted with a (urlId, userId) pair
matching no row — wrong owner or nonexistent id alike — fail with the one
combined 404 `URL not found or access denied` (never a 403), and leave
the table and the cache exactly as they were. -/
theorem nonowner_update_delete_notfound (db : List UrlRow) (cache : Cache)
    (cacheUp : Bool) (now urlId userId : Nat) (updates : List (String × JVal))
    (hfields : (updates.filter (fun kv => allowedUpdates.contains kv.1)).isEmpty = false)
    (hown : ∀ r ∈ db, ownedBy r urlId userId = false) :
    updateUrl db cache cacheUp now urlId userId updates
      = (.error ⟨"URL not found or access denied", 404⟩, db, cache)
    ∧ deleteUrl db cache cacheUp urlId userId
      = (.error ⟨"URL not found or access denied", 404⟩, db, cache) := by
  constructor
  · have hfind : db.find? (fun r => ownedBy r urlId userId) = none :=
      List.find?_eq_none.mpr (fun r hr => by simp [hown r hr])
    simp only [updateUrl, hfields, Bool.false_eq_true, if_false]
    rw [map_untouched_when_unowned db urlId userId _ hown, hfind]
  · have hdel : db.filter (fun r => ownedBy r urlId userId) = [] :=
      List.filter_eq_nil_iff.mpr (fun r hr => by simp [hown r hr])
    have hrem : db.filter (fun r => !(ownedBy r urlId userId)) = db :=
      List.filter_eq_self.mpr (fun r hr => by simp [hown r hr])
    simp only [deleteUrl, hdel, hrem]

/-- Claim C9, witness: a stranger (user 99) updating and deleting the
demo link of user 10 gets the combined 404 and changes nothing. -/
theorem nonowner_update_delete_notfound_witness :
    updateUrl [baseRow] [] true 100 1 99 [("title", JVal.jstr "Updated")]
      = (.error ⟨"URL not found or access denied", 404⟩, [baseRow], [])
    ∧ deleteUrl [baseRow] [] true 1 99
      = (.error ⟨"URL not found or access denied", 404⟩, [baseRow], []) :=
  nonowner_update_delete_notfound [baseRow] [] true 100 1 99
    [("title", JVal.jstr "Updated")] (by decide) (by decide)

/-- Claim C10.  `deleteUrl` physically removes the row, so a string that
only the deleted link occupied (as its short code or custom alias) passes
the custom-alias uniqueness check afterwards: when the link L of owner
uid is deleted, a well-formed alias occupied only by L is accepted and
returned by a subsequent `generateShortCode`. -/
theorem deleted_alias_freed (db : List UrlRow) (cache : Cache) (cacheUp : Bool)
    (L : UrlRow) (uid : Nat) (a : String) (supply : Nat → String) (retries : Nat)
    (hL : L ∈ db) (hown : L.userId = some uid)
    (hocc : ∀ r ∈ db, r.shortCode = a ∨ r.customAlias = some a →
      ownedBy r L.id uid = true)
    (ha0 : a ≠ "")
    (hlen1 : customAliasMinLength ≤ a.length)
    (hlen2 : a.length ≤ customAliasMaxLength)
    (hchar : a.toList.all validAliasChar = true) :
    (deleteUrl db cache cacheUp L.id uid).1 = .ok true
    ∧ generateShortCode (deleteUrl db cache cacheUp L.id uid).2.1 (some a)
        supply retries = .ok a := by
  have hLd : L ∈ db.filter (fun r => ownedBy r L.id uid) :=
    List.mem_filter.mpr ⟨hL, by simp [ownedBy, hown]⟩
  have hfree : aliasOccupied (db.filter (fun r => !(ownedBy r L.id uid))) a = false := by
    rw [Bool.eq_false_iff]
    intro hany
    obtain ⟨r, hr, hp⟩ := List.any_eq_true.mp hany
    obtain ⟨hrdb, hrno⟩ := List.mem_filter.mp hr
    have hno : ownedBy r L.id uid = false := by simpa using hrno
    have hyes : ownedBy r L.id uid = true := by
      apply hocc r hrdb
      simp only [Bool.or_eq_true, beq_iff_eq] at hp
      exact hp
    rw [hyes] at hno
    cases hno
  rcases hfe : db.filter (fun r => ownedBy r L.id uid) with _ | ⟨r, t⟩
  · rw [hfe] at hLd
    cases hLd
  · constructor
    · simp only [deleteUrl, hfe]
    · simp only [deleteUrl, hfe]
      exact genAlias_free_ok _ a supply retries ha0 hlen1 hlen2 hchar hfree

/-- Claim C10, witness: deleting the only link occupying the alias
`my-link` and then reserving `my-link` as a custom alias succeeds. -/
theorem deleted_alias_freed_witness :
    (deleteUrl [{ baseRow with customAlias := some "my-link" }] [] true 1 10).1
      = .ok true
    ∧ generateShortCode
        (deleteUrl [{ baseRow with customAlias := some "my-link" }] [] true 1 10).2.1
        (some "my-link") (fun _ => "x") 5 = .ok "my-link" :=
  deleted_alias_freed [{ baseRow with customAlias := some "my-link" }] [] true
    { baseRow with customAlias := some "my-link" } 10 "my-link" (fun _ => "x") 5
    (by decide) (by decide) (by decide) (by decide) (by decide) (by decide)
    (by decide)

end UrlShort
